import Mathlib

/-!
Verification of the client-side form logic of the security-cost calculator
(static/script.js) against its specification.

Modelling conventions.  Numeric input fields are modelled by the result of
the parse the script applies to them: `parseInt` on a field is an
`Option Int` and `parseFloat` an `Option ℚ`, with `none` standing for NaN
(the field is empty or not numeric).  JavaScript truthiness of such a
value is: NaN and 0 are falsy, every other number is truthy; a string is
falsy exactly when it is empty.  The DOM is modelled by the data it holds:
a post card keeps its id suffix (the value of the global postCounter at
creation), the number shown in its header, its two schedule fields and its
list of staff groups, in document order.
-/

namespace SecurityCalc

/-- A staff group inside a post card: its per-post id suffix and the three
input fields (position text, parseInt of the count field, parseFloat of the
salary field). -/
structure StaffGroup where
  sid : Nat
  position : String
  count : Option Int
  salary : Option ℚ
deriving Repr, DecidableEq

/-- A post card: id suffix from the global postCounter, the number displayed
in the card header, the parsed hours and days fields and the staff groups
in document order. -/
structure PostCard where
  pid : Nat
  title : Nat
  hours : Option Int
  days : Option Int
  staff : List StaffGroup
deriving Repr, DecidableEq

/-- The form state: the global postCounter, the per-post staffCounter
dictionary (0 for keys never touched, as in the script) and the post cards
in document order. -/
structure FormState where
  postCounter : Nat
  staffCounter : Nat → Nat
  cards : List PostCard

/-- The staff group created by addStaff: empty position, count field
prefilled with 1, empty salary field (parseFloat of the empty string is
NaN). -/
def defaultStaff (n : Nat) : StaffGroup :=
  { sid := n, position := "", count := some 1, salary := none }

/-- addStaff(postId): bump staffCounter[postId] and append a fresh default
staff group to the card with that id.  (From the UI this is only invoked
for an existing card.) -/
def addStaff (pid : Nat) (st : FormState) : FormState :=
  let n := st.staffCounter pid + 1
  { st with
    staffCounter := Function.update st.staffCounter pid n,
    cards := st.cards.map fun c =>
      if c.pid = pid then { c with staff := c.staff ++ [defaultStaff n] } else c }

/-- addPost(): bump the global postCounter, append a card whose header shows
that counter value and whose fields hold the HTML defaults (hours 12,
days 7), then add the first staff group. -/
def addPost (st : FormState) : FormState :=
  let c := st.postCounter + 1
  addStaff c
    { st with
      postCounter := c,
      cards := st.cards ++
        [{ pid := c, title := c, hours := some 12, days := some 7, staff := [] }] }

/-- Remove the first card with the given id suffix, as
document.getElementById followed by remove() does. -/
def eraseFirstCard (pid : Nat) : List PostCard → List PostCard
  | [] => []
  | c :: cs => if c.pid = pid then cs else c :: eraseFirstCard pid cs

/-- renumberPosts() walking the cards from display index i: each header is
rewritten to index + 1. -/
def renumberFrom (i : Nat) : List PostCard → List PostCard
  | [] => []
  | c :: cs => { c with title := i + 1 } :: renumberFrom (i + 1) cs

/-- renumberPosts(): rewrite every card header to its 1-based display
position. -/
def renumberPosts (cards : List PostCard) : List PostCard :=
  renumberFrom 0 cards

/-- removePost(postId): if a card with that id exists, remove it and
renumber; otherwise do nothing. -/
def removePost (pid : Nat) (st : FormState) : FormState :=
  if st.cards.any (fun c => c.pid == pid) then
    { st with cards := renumberPosts (eraseFirstCard pid st.cards) }
  else st

/-- Remove the first staff group with the given per-post id suffix. -/
def eraseFirstStaff (n : Nat) : List StaffGroup → List StaffGroup
  | [] => []
  | s :: ss => if s.sid = n then ss else s :: eraseFirstStaff n ss

/-- removeStaff over the card list: the staff group element with DOM id
staff-pid-n lives in the first card with id suffix pid that contains a
group numbered n; remove that single group, touch nothing else. -/
def removeStaffFirst (pid n : Nat) : List PostCard → List PostCard
  | [] => []
  | c :: cs =>
    if c.pid = pid ∧ c.staff.any (fun s => s.sid == n) then
      { c with staff := eraseFirstStaff n c.staff } :: cs
    else c :: removeStaffFirst pid n cs

/-- removeStaff(staffId) for staffId = staff-pid-n: remove the element if it
exists, otherwise do nothing.  No renumbering happens. -/
def removeStaff (pid n : Nat) (st : FormState) : FormState :=
  { st with cards := removeStaffFirst pid n st.cards }

/-- The numbers currently displayed in the post headers, in display order. -/
def displayedNumbers (st : FormState) : List Nat :=
  st.cards.map (·.title)

/-- A user action on the post form. -/
inductive FormOp
  | add : FormOp
  | remove : Nat → FormOp
deriving Repr, DecidableEq

/-- Run one form action. -/
def applyOp : FormOp → FormState → FormState
  | .add => addPost
  | .remove pid => removePost pid

/-- Run a sequence of form actions. -/
def runOps (st : FormState) (ops : List FormOp) : FormState :=
  ops.foldl (fun s o => applyOp o s) st

/-- The state after page load: empty form plus the one addPost() fired from
DOMContentLoaded. -/
def initState : FormState :=
  addPost { postCounter := 0, staffCounter := fun _ => 0, cards := [] }

/-! Serialization for submission, from calculate().  The script walks the
post cards with their display index, keeps the staff groups whose three
fields are truthy (nonempty position, numeric nonzero count, numeric
nonzero salary), and pushes a post exactly when that filtered list is
nonempty, numbering it with the display index plus one. -/

/-- A staff entry of the request body: { position, count, net_salary }. -/
structure ReqStaff where
  position : String
  count : Int
  net_salary : ℚ
deriving Repr, DecidableEq

/-- A post of the request body.  hours_per_day and days_per_week are pushed
as parsed, so a non-numeric field travels as NaN (none). -/
structure ReqPost where
  post_number : Nat
  hours_per_day : Option Int
  days_per_week : Option Int
  staff : List ReqStaff
deriving Repr, DecidableEq

/-- An equipment selection of the request body: { item_id, quantity }. -/
structure TmcSelection where
  item_id : Nat
  quantity : Int
deriving Repr, DecidableEq

/-- The body posted to /api/calculate. -/
structure CalculationRequest where
  posts : List ReqPost
  tmc_items : List TmcSelection
  markup_percent : ℚ
deriving Repr, DecidableEq

/-- The staff-collection loop of calculate(): keep a group exactly when
position, count and salary are all truthy (position nonempty, count and
salary numeric and nonzero). -/
def serializeStaff : List StaffGroup → List ReqStaff
  | [] => []
  | s :: ss =>
    match s.count, s.salary with
    | some c, some v =>
      if s.position ≠ "" ∧ c ≠ 0 ∧ v ≠ 0 then
        { position := s.position, count := c, net_salary := v } :: serializeStaff ss
      else serializeStaff ss
    | _, _ => serializeStaff ss

/-- The post-collection loop of calculate() from display index i: a card is
pushed exactly when its filtered staff list is nonempty, with post_number
equal to its display index plus one (the index counts every card, also the
skipped ones). -/
def serializePostsFrom (i : Nat) : List PostCard → List ReqPost
  | [] => []
  | c :: cs =>
    let staff := serializeStaff c.staff
    if staff.isEmpty then serializePostsFrom (i + 1) cs
    else
      { post_number := i + 1, hours_per_day := c.hours,
        days_per_week := c.days, staff := staff } :: serializePostsFrom (i + 1) cs

/-- The posts array of the request built from the displayed cards. -/
def serializePosts (cards : List PostCard) : List ReqPost :=
  serializePostsFrom 0 cards

/-- One equipment row of the selection list: the item id, whether its
checkbox exists and is checked (a missing checkbox behaves as unchecked in
the script), and the parseInt of its quantity field. -/
structure TmcRow where
  itemId : Nat
  checked : Bool
  qty : Option Int
deriving Repr, DecidableEq

/-- The quantity pushed for a checked row: parseInt(...) with fallback 1
when the parse is NaN or 0. -/
def selQuantity : Option Int → Int
  | some q => if q = 0 then 1 else q
  | none => 1

/-- The tmc-collection loop of calculate(): push { item_id, quantity } for
each checked row. -/
def serializeTmc : List TmcRow → List TmcSelection
  | [] => []
  | r :: rs =>
    if r.checked then
      { item_id := r.itemId, quantity := selQuantity r.qty } :: serializeTmc rs
    else serializeTmc rs

/-- The markup sent: parseFloat of the markup field with fallback 20 when
the parse is NaN or 0. -/
def serializeMarkup : Option ℚ → ℚ
  | some v => if v = 0 then 20 else v
  | none => 20

/-- The full request body assembled by calculate(). -/
def buildRequest (st : FormState) (markupField : Option ℚ) (tmcRows : List TmcRow) :
    CalculationRequest :=
  { posts := serializePosts st.cards,
    tmc_items := serializeTmc tmcRows,
    markup_percent := serializeMarkup markupField }

/-! The submission flow of calculate() around the request body: an empty
posts array is rejected with an alert before fetch is called; otherwise one
fetch is issued and either the response is rendered or the catch block
shows an error alert.  The form DOM is never written. -/

/-- The summary block of the response (the fields the claims mention). -/
structure Summary where
  total_labor_cost : ℚ
  total_tmc_cost : ℚ
  subtotal : ℚ
  markup_percent : ℚ
  markup_amount : ℚ
  final_price : ℚ
deriving Repr, DecidableEq

/-- Outcome of the one network call: a parsed response body, or a failure
(fetch rejection, non-2xx status, or unreadable body, all landing in the
same catch block). -/
inductive NetResult
  | ok : Summary → NetResult
  | err : NetResult

/-- What the user sees after calculate() returns. -/
inductive UIEffect
  | alertNoPosts : UIEffect
  | showResult : Summary → UIEffect
  | alertError : UIEffect

/-- calculate() as a step: given the form, the markup and equipment inputs
and the network behaviour, it returns the resulting form state, the list of
requests actually sent, and the visible effect. -/
def calculateStep (st : FormState) (markupField : Option ℚ) (tmcRows : List TmcRow)
    (net : CalculationRequest → NetResult) :
    FormState × List CalculationRequest × UIEffect :=
  if (serializePosts st.cards).isEmpty then (st, [], .alertNoPosts)
  else
    let req := buildRequest st markupField tmcRows
    match net req with
    | .ok res => (st, [req], .showResult res)
    | .err => (st, [req], .alertError)

/-! Concrete states used by counterexamples and witnesses. -/

/-- A card whose only staff group is the freshly added default one: empty
position and empty salary field, so the serialization filter drops it. -/
def cardNoValid : PostCard :=
  { pid := 1, title := 1, hours := some 12, days := some 7,
    staff := [{ sid := 1, position := "", count := some 1, salary := none }] }

/-- A card with one fully filled staff group. -/
def cardValid : PostCard :=
  { pid := 2, title := 2, hours := some 12, days := some 7,
    staff := [{ sid := 1, position := "Guard", count := some 2, salary := some 150000 }] }

/-- A card whose only staff group has a negative count and a negative
salary: both are truthy in JavaScript, so the filter keeps the group. -/
def cardNegative : PostCard :=
  { pid := 1, title := 1, hours := some 8, days := some 5,
    staff := [{ sid := 1, position := "Guard", count := some (-1), salary := some (-5) }] }

/-- A form whose single card is cardValid. -/
def stValid : FormState :=
  { postCounter := 2, staffCounter := fun _ => 1, cards := [cardValid] }

/-! C2.  The spec asserts that after every sequence of AddPost and
RemovePost actions the displayed numbers are exactly 1..N.  renumberPosts
exists to maintain that, and it does run after every removal, but addPost
titles the new card with the global postCounter, which after a removal is
larger than the number of cards: from the initial page, AddPost,
RemovePost(first card), AddPost displays the numbers 1 and 3 on two
cards. -/

/-- C2: from the initial page, the sequence AddPost, RemovePost of the
first card, AddPost leaves two cards whose headers display 1 and 3, not
1 and 2: an addPost after a removal breaks the displayed contiguity the
renumbering is meant to maintain. -/
theorem addPost_after_removal_displays_gap :
    displayedNumbers (runOps initState [FormOp.add, FormOp.remove 1, FormOp.add]) = [1, 3]
    ∧ (runOps initState [FormOp.add, FormOp.remove 1, FormOp.add]).cards.length = 2
    ∧ ([1, 3] : List Nat) ≠ [1, 2] := by
  exact ⟨by decide, by decide, by decide⟩

/-! C5.  The markup sent is parseFloat(field) with the JavaScript fallback
v or 20, which also replaces an explicit 0 by 20 and passes negative
entries through unchanged. -/

/-- C5 counterexample: a markup field holding the number 0 is serialized as
20, not as the entered value, and a markup field holding -5 is serialized
as -5, which is negative. -/
theorem markup_zero_and_negative_cex :
    serializeMarkup (some 0) = 20 ∧ (0 : ℚ) ≠ 20
    ∧ serializeMarkup (some (-5)) = -5 ∧ ¬ (0 ≤ serializeMarkup (some (-5))) := by
  exact ⟨by decide, by decide, by decide, by decide⟩

/-- C5 (amended): the markup_percent of the serialized request equals the
parsed markup entry when that entry is numeric and nonzero (negative
values included, so the field is not guaranteed non-negative) and is 20
when the field is empty, non-numeric, or holds 0. -/
theorem markup_percent_serialization (st : FormState) (tmcRows : List TmcRow) (v : ℚ) :
    (buildRequest st (some v) tmcRows).markup_percent = (if v = 0 then 20 else v)
    ∧ (buildRequest st none tmcRows).markup_percent = 20 :=
  ⟨rfl, rfl⟩

/-! C6.  calculate() checks the collected posts before anything else
touches the network: an empty posts array produces only an alert. -/

/-- C6: when serialization yields zero posts, the submission terminates
with the no-posts alert before any request is issued, the form is left
as it was, and nothing is rendered. -/
theorem zero_posts_rejected_before_network (st : FormState) (markupField : Option ℚ)
    (tmcRows : List TmcRow) (net : CalculationRequest → NetResult)
    (h : serializePosts st.cards = []) :
    calculateStep st markupField tmcRows net = (st, [], UIEffect.alertNoPosts) := by
  simp [calculateStep, h]

/-- C6 witness: the initial page (one default post whose staff group has an
empty position and salary) serializes to zero posts and is rejected
client side. -/
theorem zero_posts_rejected_witness :
    calculateStep initState none [] (fun _ => NetResult.err)
      = (initState, [], UIEffect.alertNoPosts) :=
  zero_posts_rejected_before_network initState none [] (fun _ => NetResult.err) (by decide)

/-! C7.  The failure path of calculate() (fetch rejection or non-2xx
response) lands in the catch block, which only shows an alert; the form
DOM is never written and the one fetch is not repeated. -/

/-- C7: when the single network call fails, the form state is exactly the
one from before the submission, exactly one request was sent (no retry),
and the only visible effect is the error alert, with no result rendered. -/
theorem failed_calculation_preserves_form (st : FormState) (markupField : Option ℚ)
    (tmcRows : List TmcRow) (net : CalculationRequest → NetResult)
    (hposts : serializePosts st.cards ≠ [])
    (hfail : net (buildRequest st markupField tmcRows) = NetResult.err) :
    calculateStep st markupField tmcRows net
      = (st, [buildRequest st markupField tmcRows], UIEffect.alertError) := by
  have hne : (serializePosts st.cards).isEmpty = false := by
    simpa [List.isEmpty_iff] using hposts
  simp [calculateStep, hne, hfail]

/-- C7 witness: a one-post form submitted against a failing network keeps
its state and surfaces only the error alert. -/
theorem failed_calculation_witness :
    calculateStep stValid none [] (fun _ => NetResult.err)
      = (stValid, [buildRequest stValid none []], UIEffect.alertError) :=
  failed_calculation_preserves_form stValid none [] (fun _ => NetResult.err) (by decide) rfl

/-! C9.  The tmc loop pushes one selection per checked row and quantifies
it with parseInt of the quantity field, falling back to 1 when that parse
is NaN or 0. -/

/-- C9: the serialized tmc_items are exactly the checked rows in display
order, each selection carrying the parsed quantity of its row, where a
non-numeric parse and a parsed 0 both become 1 and every other value
(negative included) is kept. -/
theorem tmc_items_are_checked_rows (rows : List TmcRow) (q : Int) :
    serializeTmc rows
      = (rows.filter (fun r => r.checked)).map
          (fun r => { item_id := r.itemId, quantity := selQuantity r.qty })
    ∧ selQuantity (some q) = (if q = 0 then 1 else q)
    ∧ selQuantity none = 1 := by
  refine ⟨?_, rfl, rfl⟩
  induction rows with
  | nil => rfl
  | cons r rs ih =>
    cases hr : r.checked
    · simp [serializeTmc, hr, ih]
    · simp [serializeTmc, hr, ih]

/-! C10.  Both removal handlers look the element up first and fall through
silently when it is absent; removePost renumbers only after an actual
removal. -/

/-- Helper for C10: when no card both carries the post id and contains a
staff group with the given number, the staff-removal walk returns the card
list unchanged. -/
lemma removeStaffFirst_eq_self (pid n : Nat) :
    ∀ cs : List PostCard, (∀ c ∈ cs, c.pid = pid → ∀ s ∈ c.staff, s.sid ≠ n) →
      removeStaffFirst pid n cs = cs := by
  intro cs
  induction cs with
  | nil => intro _; rfl
  | cons c cs ih =>
    intro h
    have hcond : ¬ (c.pid = pid ∧ c.staff.any (fun s => s.sid == n)) := by
      rintro ⟨h1, h2⟩
      rcases List.any_eq_true.mp h2 with ⟨s, hs, hsn⟩
      exact h c (List.mem_cons_self c cs) h1 s hs (by simpa using hsn)
    simp only [removeStaffFirst, if_neg hcond]
    rw [ih (fun b hb => h b (List.mem_cons_of_mem c hb))]

/-- C10: removing a post by an id no card carries, or a staff group by a
reference no card matches, leaves the entire form state unchanged and
raises nothing. -/
theorem missing_reference_removal_is_noop (pid pid2 n2 : Nat) (st : FormState)
    (hpost : ∀ c ∈ st.cards, c.pid ≠ pid)
    (hstaff : ∀ c ∈ st.cards, c.pid = pid2 → ∀ s ∈ c.staff, s.sid ≠ n2) :
    removePost pid st = st ∧ removeStaff pid2 n2 st = st := by
  constructor
  · have hany : st.cards.any (fun c => c.pid == pid) = false := by
      rw [List.any_eq_false]
      intro c hc
      simpa using hpost c hc
    simp [removePost, hany]
  · show { st with cards := removeStaffFirst pid2 n2 st.cards } = st
    rw [removeStaffFirst_eq_self pid2 n2 st.cards hstaff]

/-- C10 witness: on a one-post form, removing post 99 or staff group 5 of
post 99 changes nothing. -/
theorem missing_reference_removal_witness :
    removePost 99 stValid = stValid ∧ removeStaff 99 5 stValid = stValid :=
  missing_reference_removal_is_noop 99 99 5 stValid (by decide) (by decide)

/-! C1.  calculate() numbers a pushed post with the display index of its
card plus one, where the index runs over every displayed card, also the
ones skipped for lacking valid staff.  A skipped card therefore leaves a
gap in the submitted numbers, while deleted cards never do (the index is
recomputed from the current display). -/

/-- Every post number produced from start index i lies strictly between i
and i plus the number of cards walked. -/
lemma serializePostsFrom_number_bounds (cs : List PostCard) :
    ∀ (i : Nat), ∀ p ∈ serializePostsFrom i cs,
      i < p.post_number ∧ p.post_number ≤ i + cs.length := by
  induction cs with
  | nil => intro i p hp; simp [serializePostsFrom] at hp
  | cons c cs ih =>
    intro i p hp
    simp only [serializePostsFrom] at hp
    split at hp
    · obtain ⟨h1, h2⟩ := ih (i + 1) p hp
      refine ⟨by omega, ?_⟩
      simp only [List.length_cons]
      omega
    · rcases List.mem_cons.mp hp with rfl | hp
      · constructor
        · show i < i + 1
          omega
        · show i + 1 ≤ i + (c :: cs).length
          simp only [List.length_cons]
          omega
      · obtain ⟨h1, h2⟩ := ih (i + 1) p hp
        refine ⟨by omega, ?_⟩
        simp only [List.length_cons]
        omega

/-- The submitted post numbers are strictly increasing in display order. -/
lemma serializePostsFrom_numbers_sorted (cs : List PostCard) :
    ∀ (i : Nat),
      List.Sorted (fun a b => a < b) ((serializePostsFrom i cs).map ReqPost.post_number) := by
  induction cs with
  | nil => intro i; simp [serializePostsFrom]
  | cons c cs ih =>
    intro i
    simp only [serializePostsFrom]
    split
    · exact ih (i + 1)
    · rw [List.map_cons]
      refine List.sorted_cons.mpr ⟨?_, ih (i + 1)⟩
      intro b hb
      rcases List.mem_map.mp hb with ⟨p, hp, rfl⟩
      have h := (serializePostsFrom_number_bounds cs (i + 1) p hp).1
      simpa using by omega

/-- When every card keeps at least one staff entry, the numbers from start
index i are the contiguous range i+1, ..., i+length. -/
lemma serializePostsFrom_numbers_of_all_kept (cs : List PostCard) :
    ∀ (i : Nat), (∀ c ∈ cs, serializeStaff c.staff ≠ []) →
      (serializePostsFrom i cs).map ReqPost.post_number = List.range' (i + 1) cs.length := by
  induction cs with
  | nil => intro i _; simp [serializePostsFrom]
  | cons c cs ih =>
    intro i h
    have hc : ¬ ((serializeStaff c.staff).isEmpty = true) := by
      simpa [List.isEmpty_iff] using h c (List.mem_cons_self c cs)
    simp only [serializePostsFrom, if_neg hc, List.map_cons, List.length_cons]
    rw [List.range'_succ]
    exact congrArg (List.cons (i + 1)) (ih (i + 1) (fun b hb => h b (List.mem_cons_of_mem c hb)))

/-- C1 counterexample: with a first card whose staff filter empties (the
default untouched post) followed by a valid card, the request holds one
post numbered 2; a contiguous sequence starting at 1 for one post would be
the single number 1. -/
theorem post_numbers_gap_cex :
    (serializePosts [cardNoValid, cardValid]).map ReqPost.post_number = [2]
    ∧ (serializePosts [cardNoValid, cardValid]).length = 1
    ∧ ([2] : List Nat) ≠ [1] := by
  exact ⟨by decide, by decide, by decide⟩

/-- C1 (amended): provided every displayed card contributes a post (its
filtered staff list is nonempty), the post_number values of the request
are exactly the contiguous sequence 1..N in display order, independent of
any previously deleted cards; a card excluded for lacking valid staff
instead leaves a gap at its display position. -/
theorem post_numbers_contiguous_when_all_kept (cards : List PostCard)
    (h : ∀ c ∈ cards, serializeStaff c.staff ≠ []) :
    (serializePosts cards).map ReqPost.post_number = List.range' 1 cards.length :=
  serializePostsFrom_numbers_of_all_kept cards 0 h

/-- C1 witness: a single valid card serializes to the single number 1. -/
theorem post_numbers_contiguous_witness :
    (serializePosts [cardValid]).map ReqPost.post_number = List.range' 1 1 :=
  post_numbers_contiguous_when_all_kept [cardValid] (by decide)

/-! C3.  The staff filter of calculate() is JavaScript truthiness: it
keeps a group when the position is nonempty and the parsed count and
salary are numeric and nonzero.  Negative counts and salaries are truthy
and therefore kept, which the spec wording (positive count, positive
salary) does not allow. -/

/-- Validity of a staff entry as the specification words it (sections 3
and 4.3): nonempty position, positive count, positive salary. -/
def specValidStaff (s : StaffGroup) : Prop :=
  s.position ≠ "" ∧ 0 < s.count.getD 0 ∧ 0 < s.salary.getD 0

instance (s : StaffGroup) : Decidable (specValidStaff s) := by
  unfold specValidStaff; infer_instance

/-- Every staff entry that survives the filter has a nonempty position and
nonzero count and salary. -/
lemma serializeStaff_fields (l : List StaffGroup) :
    ∀ e ∈ serializeStaff l, e.position ≠ "" ∧ e.count ≠ 0 ∧ e.net_salary ≠ 0 := by
  induction l with
  | nil => intro e he; simp [serializeStaff] at he
  | cons s ss ih =>
    intro e he
    cases hc : s.count with
    | none => simp only [serializeStaff, hc] at he; exact ih e he
    | some c =>
      cases hv : s.salary with
      | none => simp only [serializeStaff, hc, hv] at he; exact ih e he
      | some v =>
        simp only [serializeStaff, hc, hv] at he
        by_cases hcond : s.position ≠ "" ∧ c ≠ 0 ∧ v ≠ 0
        · rw [if_pos hcond] at he
          rcases List.mem_cons.mp he with rfl | he
          · exact ⟨hcond.1, hcond.2.1, hcond.2.2⟩
          · exact ih e he
        · rw [if_neg hcond] at he
          exact ih e he

/-- Every post of the request carries the (nonempty) filtered staff list of
one of the walked cards. -/
lemma serializePostsFrom_staff_provenance (cs : List PostCard) :
    ∀ (i : Nat), ∀ p ∈ serializePostsFrom i cs,
      ∃ c ∈ cs, p.staff = serializeStaff c.staff ∧ serializeStaff c.staff ≠ [] := by
  induction cs with
  | nil => intro i p hp; simp [serializePostsFrom] at hp
  | cons c cs ih =>
    intro i p hp
    simp only [serializePostsFrom] at hp
    split at hp
    · rcases ih (i + 1) p hp with ⟨c2, hc2, h1, h2⟩
      exact ⟨c2, List.mem_cons_of_mem c hc2, h1, h2⟩
    · case isFalse hne =>
      rcases List.mem_cons.mp hp with rfl | hp
      · refine ⟨c, List.mem_cons_self c cs, rfl, ?_⟩
        simpa [List.isEmpty_iff] using hne
      · rcases ih (i + 1) p hp with ⟨c2, hc2, h1, h2⟩
        exact ⟨c2, List.mem_cons_of_mem c hc2, h1, h2⟩

/-- The request holds exactly one post per card whose filtered staff list
is nonempty. -/
lemma serializePostsFrom_length (cs : List PostCard) :
    ∀ (i : Nat),
      (serializePostsFrom i cs).length
        = (cs.filter (fun c => !(serializeStaff c.staff).isEmpty)).length := by
  induction cs with
  | nil => intro i; rfl
  | cons c cs ih =>
    intro i
    cases h : (serializeStaff c.staff).isEmpty
    · simp only [serializePostsFrom, h, Bool.false_eq_true, if_false, List.filter_cons,
        Bool.not_false, if_true, List.length_cons]
      rw [ih (i + 1)]
    · simp only [serializePostsFrom, h, if_true, List.filter_cons, Bool.not_true]
      simpa using ih (i + 1)

/-- C3 counterexample: a card whose only staff group has count -1 and
salary -5 is serialized as a post whose single staff entry is that group;
the spec filter would have discarded it (the count is not positive), so
the post should have been excluded and the entry absent. -/
theorem negative_staff_entry_included_cex :
    serializePosts [cardNegative]
      = [{ post_number := 1, hours_per_day := some 8, days_per_week := some 5,
           staff := [{ position := "Guard", count := -1, net_salary := -5 }] }]
    ∧ cardNegative.staff
        = [{ sid := 1, position := "Guard", count := some (-1), salary := some (-5) }]
    ∧ ¬ specValidStaff { sid := 1, position := "Guard", count := some (-1), salary := some (-5) } := by
  exact ⟨by decide, by decide, by decide⟩

/-- C3 (amended): every post of the request has a nonempty staff list —
serialization never includes a post whose filtered staff list is empty —
every one of its entries has a nonempty position and nonzero (though
possibly negative) count and salary, and the number of posts equals the
number of displayed cards whose filtered staff list is nonempty, so every
card failing the filter is excluded. -/
theorem request_staff_nonempty_and_filtered (cards : List PostCard) (p : ReqPost)
    (hp : p ∈ serializePosts cards) :
    p.staff ≠ []
    ∧ p.staff.all
        (fun e => e.position != "" && e.count != 0 && e.net_salary != 0) = true
    ∧ (serializePosts cards).length
        = (cards.filter (fun c => !(serializeStaff c.staff).isEmpty)).length := by
  rcases serializePostsFrom_staff_provenance cards 0 p hp with ⟨c, _, hstaff, hne⟩
  refine ⟨?_, ?_, serializePostsFrom_length cards 0⟩
  · rw [hstaff]
    exact hne
  · rw [List.all_eq_true]
    intro e he
    have hfields := serializeStaff_fields c.staff e (hstaff ▸ he)
    simp only [Bool.and_eq_true, bne_iff_ne]
    exact ⟨⟨hfields.1, hfields.2.1⟩, hfields.2.2⟩

/-- C3 witness: on the two-card form, the serialized post of the valid
card has a nonempty staff list, each of its entries passes the filter,
and the request has one post while one of the two cards passes the
filter. -/
theorem request_staff_nonempty_witness :
    ([{ position := "Guard", count := 2, net_salary := 150000 }] : List ReqStaff) ≠ []
    ∧ ([{ position := "Guard", count := 2, net_salary := 150000 }] : List ReqStaff).all
        (fun e => e.position != "" && e.count != 0 && e.net_salary != 0) = true
    ∧ (serializePosts [cardNoValid, cardValid]).length
        = ([cardNoValid, cardValid].filter
            (fun c => !(serializeStaff c.staff).isEmpty)).length :=
  request_staff_nonempty_and_filtered [cardNoValid, cardValid]
    { post_number := 2, hours_per_day := some 12, days_per_week := some 7,
      staff := [{ position := "Guard", count := 2, net_salary := 150000 }] }
    (by decide)

/-! C8.  removeStaff only detaches one staff-group element from the DOM:
no card is touched besides the one containing that element, no field of
any other group changes, and neither posts nor staff are renumbered. -/

/-- eraseFirstStaff removes exactly the first group numbered n, keeping
the prefix before it and the suffix after it in order. -/
lemma eraseFirstStaff_eq_takeWhile_dropWhile (n : Nat) (l : List StaffGroup) :
    eraseFirstStaff n l
      = l.takeWhile (fun s => s.sid != n) ++ (l.dropWhile (fun s => s.sid != n)).tail := by
  induction l with
  | nil => rfl
  | cons s ss ih =>
    by_cases h : s.sid = n
    · simp [eraseFirstStaff, List.takeWhile_cons, List.dropWhile_cons, h]
    · simp [eraseFirstStaff, List.takeWhile_cons, List.dropWhile_cons, h, ih]

/-- When no group of the list is numbered n, erasing is the identity. -/
lemma eraseFirstStaff_of_no_match (n : Nat) (l : List StaffGroup)
    (h : ∀ s ∈ l, s.sid ≠ n) : eraseFirstStaff n l = l := by
  induction l with
  | nil => rfl
  | cons s ss ih =>
    simp only [eraseFirstStaff, if_neg (h s (List.mem_cons_self s ss))]
    rw [ih (fun x hx => h x (List.mem_cons_of_mem s hx))]

/-- Cards not carrying the post id are ignored by the pointwise update. -/
lemma map_removeStaff_of_no_pid (pid n : Nat) (cs : List PostCard)
    (h : ∀ c ∈ cs, c.pid ≠ pid) :
    cs.map (fun c => if c.pid = pid
      then { c with staff := eraseFirstStaff n c.staff } else c) = cs := by
  induction cs with
  | nil => rfl
  | cons c cs ih =>
    rw [List.map_cons, if_neg (h c (List.mem_cons_self c cs)),
      ih (fun x hx => h x (List.mem_cons_of_mem c hx))]

/-- With distinct post ids (always true of states the UI can reach, since
the global postCounter never repeats), the staff-removal walk acts as the
pointwise update that erases the first group numbered n inside the card
carrying the post id and leaves every other card untouched. -/
lemma removeStaffFirst_eq_map (pid n : Nat) (cs : List PostCard)
    (hdis : cs.Pairwise (fun a b => a.pid ≠ b.pid)) :
    removeStaffFirst pid n cs
      = cs.map (fun c => if c.pid = pid
          then { c with staff := eraseFirstStaff n c.staff } else c) := by
  induction cs with
  | nil => rfl
  | cons c cs ih =>
    rw [List.pairwise_cons] at hdis
    obtain ⟨hhead, htail⟩ := hdis
    by_cases h1 : c.pid = pid
    · have hcs : ∀ b ∈ cs, b.pid ≠ pid :=
        fun b hb hbp => hhead b hb (h1.trans hbp.symm)
      by_cases h2 : c.staff.any (fun s => s.sid == n) = true
      · simp only [removeStaffFirst, if_pos (And.intro h1 h2), List.map_cons, if_pos h1]
        rw [map_removeStaff_of_no_pid pid n cs hcs]
      · have hcond : ¬ (c.pid = pid ∧ c.staff.any (fun s => s.sid == n) = true) :=
          fun hh => h2 hh.2
        have hstaff : eraseFirstStaff n c.staff = c.staff := by
          apply eraseFirstStaff_of_no_match
          intro s hs hsn
          exact h2 (List.any_eq_true.mpr ⟨s, hs, by simp [hsn]⟩)
        simp only [removeStaffFirst, if_neg hcond, List.map_cons, if_pos h1, hstaff]
        rw [removeStaffFirst_eq_self pid n cs
          (fun b hb hbp => absurd hbp (hcs b hb)),
          map_removeStaff_of_no_pid pid n cs hcs]
    · have hcond : ¬ (c.pid = pid ∧ c.staff.any (fun s => s.sid == n) = true) :=
        fun hh => h1 hh.1
      simp only [removeStaffFirst, if_neg hcond, List.map_cons, if_neg h1]
      rw [ih htail]

/-- C8: on a form with distinct post ids, removeStaff changes only the
staff list of the card carrying the referenced post id, and only by
erasing the first group with the referenced number there; every other
card is kept identical (all field values included), the displayed post
numbers do not change, the number of cards does not change, and both
counters are untouched: no renumbering of staff or posts occurs. -/
theorem removeStaff_frame (pid n : Nat) (st : FormState)
    (hdis : st.cards.Pairwise (fun a b => a.pid ≠ b.pid)) :
    (removeStaff pid n st).cards
      = st.cards.map (fun c => if c.pid = pid
          then { c with staff := eraseFirstStaff n c.staff } else c)
    ∧ displayedNumbers (removeStaff pid n st) = displayedNumbers st
    ∧ (removeStaff pid n st).cards.length = st.cards.length
    ∧ (removeStaff pid n st).postCounter = st.postCounter
    ∧ (removeStaff pid n st).staffCounter = st.staffCounter := by
  have hmap := removeStaffFirst_eq_map pid n st.cards hdis
  refine ⟨hmap, ?_, ?_, rfl, rfl⟩
  · show (removeStaffFirst pid n st.cards).map (·.title) = st.cards.map (·.title)
    rw [hmap, List.map_map]
    apply List.map_congr_left
    intro c _
    by_cases h : c.pid = pid
    · simp [h]
    · simp [h]
  · show (removeStaffFirst pid n st.cards).length = st.cards.length
    rw [hmap, List.length_map]

/-- A form with the default untouched card and a valid card. -/
def stTwo : FormState :=
  { postCounter := 2, staffCounter := fun _ => 1, cards := [cardNoValid, cardValid] }

/-- C8 witness. -/
theorem removeStaff_frame_witness :
    (removeStaff 2 1 stTwo).cards
      = stTwo.cards.map (fun c => if c.pid = 2
          then { c with staff := eraseFirstStaff 1 c.staff } else c)
    ∧ displayedNumbers (removeStaff 2 1 stTwo) = displayedNumbers stTwo
    ∧ (removeStaff 2 1 stTwo).cards.length = stTwo.cards.length
    ∧ (removeStaff 2 1 stTwo).postCounter = stTwo.postCounter
    ∧ (removeStaff 2 1 stTwo).staffCounter = stTwo.staffCounter :=
  removeStaff_frame 2 1 stTwo (by decide)

/-! C4.  The pricing calculation itself runs behind POST /api/calculate
and is not part of the reviewed sources; the spec fixes its contract in
section 4.1 and the arithmetic identities in section 8. -/

/-- Modelled from the spec: an equipment item as the registry returns it
over GET /api/tmc (the backend store is not part of src/); monthly_cost is
the stored derived field price × quantity / amortization_months. -/
structure EquipmentItem where
  id : Nat
  name : String
  price : ℚ
  quantity : Int
  amortization_months : Int
  monthly_cost : ℚ
deriving Repr, DecidableEq

/-- Modelled from the spec: resolving one equipment selection (section
4.1) fails with NotFound when the id is absent from the registry and
otherwise prices the selection at the stored monthly cost times the
selected quantity. -/
def resolveTmc (reg : List EquipmentItem) (sel : TmcSelection) : Option ℚ :=
  match reg.find? (fun it => it.id == sel.item_id) with
  | some it => some (it.monthly_cost * sel.quantity)
  | none => none

/-- Modelled from the spec: the summary of the pricing calculation behind
POST /api/calculate (section 4.1), which is not part of src/.  Labor cost
is count × net_salary summed per post and over posts, equipment cost the
sum of the resolved selections, then subtotal, markup and final price.
The schedule strings, monthly hours and hourly rate are left out: the
weeks-per-month constant and the zero-hours behaviour are explicitly open
in the spec (sections 4.1 and 9). -/
def calcSummary (reg : List EquipmentItem) (req : CalculationRequest) : Option Summary :=
  match req.tmc_items.mapM (resolveTmc reg) with
  | none => none
  | some tmcCosts =>
    let labor := (req.posts.map
      (fun p => (p.staff.map (fun e => (e.count : ℚ) * e.net_salary)).sum)).sum
    let tmc := tmcCosts.sum
    let subtotal := labor + tmc
    let markup := subtotal * req.markup_percent / 100
    some { total_labor_cost := labor, total_tmc_cost := tmc, subtotal := subtotal,
           markup_percent := req.markup_percent, markup_amount := markup,
           final_price := subtotal + markup }

/-- C4: whenever the calculation succeeds on a request with non-negative
numeric fields, its summary satisfies exactly subtotal = total labor cost
plus total equipment cost, markup amount = subtotal × markup percent /
100, and final price = subtotal + markup amount, which equals
subtotal × (1 + markup percent / 100). -/
theorem summary_arithmetic (reg : List EquipmentItem) (req : CalculationRequest)
    (res : Summary) (hres : calcSummary reg req = some res)
    (_hm : 0 ≤ req.markup_percent)
    (_hstaff : ∀ p ∈ req.posts, ∀ e ∈ p.staff, 0 ≤ e.count ∧ 0 ≤ e.net_salary)
    (_hqty : ∀ t ∈ req.tmc_items, 0 ≤ t.quantity) :
    res.subtotal = res.total_labor_cost + res.total_tmc_cost
    ∧ res.markup_percent = req.markup_percent
    ∧ res.markup_amount = res.subtotal * res.markup_percent / 100
    ∧ res.final_price = res.subtotal + res.markup_amount
    ∧ res.final_price = res.subtotal * (1 + res.markup_percent / 100) := by
  unfold calcSummary at hres
  cases hmm : req.tmc_items.mapM (resolveTmc reg) with
  | none => rw [hmm] at hres; cases hres
  | some tmcCosts =>
    rw [hmm] at hres
    simp only [Option.some.injEq] at hres
    subst hres
    refine ⟨rfl, rfl, rfl, rfl, ?_⟩
    show (fun s p => s + s * p / 100 = s * (1 + p / 100))
      ((req.posts.map
        (fun p => (p.staff.map (fun e => (e.count : ℚ) * e.net_salary)).sum)).sum
        + tmcCosts.sum) req.markup_percent
    simp only
    ring

/-- The request of the worked example of spec section 8: one post, one
staff group of two guards at 150000, markup 20, no equipment. -/
def reqEx : CalculationRequest :=
  { posts := [{ post_number := 1, hours_per_day := some 12, days_per_week := some 7,
                staff := [{ position := "Guard", count := 2, net_salary := 150000 }] }],
    tmc_items := [], markup_percent := 20 }

/-- The summary of the worked example of spec section 8. -/
def summaryEx : Summary :=
  { total_labor_cost := 300000, total_tmc_cost := 0, subtotal := 300000,
    markup_percent := 20, markup_amount := 60000, final_price := 360000 }

/-- C4 witness: the worked example of spec section 8. -/
theorem summary_arithmetic_witness :
    summaryEx.subtotal = summaryEx.total_labor_cost + summaryEx.total_tmc_cost
    ∧ summaryEx.markup_percent = reqEx.markup_percent
    ∧ summaryEx.markup_amount = summaryEx.subtotal * summaryEx.markup_percent / 100
    ∧ summaryEx.final_price = summaryEx.subtotal + summaryEx.markup_amount
    ∧ summaryEx.final_price = summaryEx.subtotal * (1 + summaryEx.markup_percent / 100) :=
  summary_arithmetic [] reqEx summaryEx
    (by norm_num [calcSummary, reqEx, summaryEx, List.mapM, List.mapM.loop])
    (by decide) (by decide) (by decide)

end SecurityCalc

